import Mathlib

/-
Verification of the wavelength game server (src/server/index.js): the room
state machine, the scoring engine, the prompt-pool parser and the per-player
state broadcast. JavaScript numbers are modelled as rationals; a payload
value that is not a finite number (NaN, Infinity, a non-numeric string) is
modelled as Option.none. JavaScript Map / Set / plain-object stores are
modelled as insertion-ordered association lists.
-/

set_option linter.unusedVariables false

namespace Wavelength

/-- jsRound q models JavaScript Math.round: round half toward positive
infinity, which on rationals is the floor of q + 1/2. -/
def jsRound (q : ℚ) : ℤ :=
  ⌊q + 1/2⌋

/-- jsMin models Math.min on two finite numbers. -/
def jsMin (a b : ℚ) : ℚ :=
  if a ≤ b then a else b

/-- jsMax models Math.max on two finite numbers. -/
def jsMax (a b : ℚ) : ℚ :=
  if a ≤ b then b else a

/-- Math.min on integers. -/
def jsMinI (a b : ℤ) : ℤ :=
  if a ≤ b then a else b

/-- Math.max on integers. -/
def jsMaxI (a b : ℤ) : ℤ :=
  if a ≤ b then b else a

/-- clamp01_100 from index.js lines 36-40: Number(n) is modelled as
Option ℚ, none standing for a non-finite result; a finite value is clamped
to [0,100] (note: no rounding happens here). -/
def clamp01_100 (n : Option ℚ) : ℚ :=
  match n with
  | none => 50
  | some v => jsMax 0 (jsMin 100 v)

/-- clampInt from index.js lines 42-47: non-finite input yields the
fallback, otherwise Math.floor then clamp to [lo,hi]. -/
def clampInt (n : Option ℚ) (lo hi fallback : ℤ) : ℤ :=
  match n with
  | none => fallback
  | some v => jsMaxI lo (jsMinI hi v.floor)

/-- jsOr models the JavaScript expression (x || d) on an integer x: the
fallback d is used when x is falsy, i.e. zero. -/
def jsOr (x d : ℤ) : ℤ :=
  if x = 0 then d else x

/-- scoreFromDistance from index.js lines 50-56: the classic distance
tiers. The distance argument is a rational because guesses may be
fractional. -/
def scoreFromDistance (dist : ℚ) : ℕ :=
  if dist ≤ 10 then 4
  else if dist ≤ 17 then 3
  else if dist ≤ 24 then 2
  else if dist ≤ 34 then 1
  else 0

/-! ### String utilities (JavaScript strings as lists of characters) -/

/-- firstOcc sep s is the index of the first occurrence of the substring
sep in s, as used by String.prototype.includes / split. -/
def firstOcc (sep : List Char) : List Char → Option ℕ
  | [] => if sep = [] then some 0 else none
  | c :: cs =>
    if sep.isPrefixOf (c :: cs) then some 0
    else (firstOcc sep cs).map (· + 1)

/-- containsSub sep s models s.includes(sep) for a non-empty sep. -/
def containsSub (sep s : List Char) : Bool :=
  (firstOcc sep s).isSome

/-- Fuelled worker for splitOnSub. When sep is non-empty every recursive
call removes at least one character, so fuel = s.length never runs out
before s is exhausted; at fuel 0 the remainder s is the empty list and
[s] agrees with the unfuelled behaviour. -/
def splitOnSubAux (sep : List Char) : ℕ → List Char → List (List Char)
  | 0, s => [s]
  | fuel + 1, s =>
    match firstOcc sep s with
    | none => [s]
    | some i => s.take i :: splitOnSubAux sep fuel (s.drop (i + sep.length))

/-- splitOnSub sep s models s.split(sep) for a string separator: the list
of segments of s between consecutive non-overlapping occurrences of sep. -/
def splitOnSub (sep s : List Char) : List (List Char) :=
  if sep = [] then [s] else splitOnSubAux sep s.length s

/-- trimChars models String.prototype.trim: strip leading and trailing
whitespace. -/
def trimChars (s : List Char) : List Char :=
  ((s.dropWhile Char.isWhitespace).reverse.dropWhile Char.isWhitespace).reverse

/-! ### Prompt pool parser (index.js lines 58-91) -/

/-- A left/right spectrum label pair. -/
structure Prompt where
  left : List Char
  right : List Char
deriving DecidableEq

/-- splitPair sep line models the destructuring
const [a, b] = line.split(sep) followed by a?.trim() and b?.trim():
the first two segments of the split, trimmed, as options. -/
def splitPair (sep line : List Char) : Option (List Char) × Option (List Char) :=
  ((splitOnSub sep line).get? 0 |>.map trimChars,
   (splitOnSub sep line).get? 1 |>.map trimChars)

/-- parseLine models one iteration of the loop in parsePromptLines: the
if/else chain trying the delimiters in priority order, then the
truthiness-and-length filter before push. -/
def parseLine (line : List Char) : Option Prompt :=
  let lr : Option (List Char) × Option (List Char) :=
    if containsSub ['|'] line then splitPair ['|'] line
    else if containsSub [','] line then splitPair [','] line
    else if containsSub ['-', '>'] line then splitPair ['-', '>'] line
    else if containsSub ['—'] line then splitPair ['—'] line
    else (none, none)
  match lr with
  | (some l, some r) =>
    if l ≠ [] ∧ r ≠ [] ∧ l.length ≤ 50 ∧ r.length ≤ 50 then some ⟨l, r⟩ else none
  | _ => none

/-- nonBlankLines models String(text).split(line breaks).map(trim)
.filter(Boolean). Splitting on the newline character and then trimming is
equivalent to splitting on an optional carriage return plus newline and
then trimming, since trim also strips the carriage return. -/
def nonBlankLines (text : List Char) : List (List Char) :=
  ((splitOnSub ['\n'] text).map trimChars).filter (· ≠ [])

/-- parsePromptLines from index.js lines 58-91: the accumulating for-loop
is the filterMap of parseLine over the non-blank lines, and
prompts.slice(0, 250) is the 250-element truncation. -/
def parsePromptLines (text : List Char) : List Prompt :=
  ((nonBlankLines text).filterMap parseLine).take 250

/-! ### Association-list stores (JavaScript Map / Set / plain object) -/

/-- getVal m k models m.get(k) / m[k]: the value at the first (and, as
constructed, only) entry with key k. -/
def getVal {α : Type} : List (String × α) → String → Option α
  | [], _ => none
  | (k', v) :: rest, k => if k' = k then some v else getVal rest k

/-- objSet m k v models m.set(k, v) / m[k] = v: replace the value at an
existing key in place, else append a new entry. -/
def objSet {α : Type} : List (String × α) → String → α → List (String × α)
  | [], k, v => [(k, v)]
  | (k', v') :: rest, k, v =>
    if k' = k then (k, v) :: rest else (k', v') :: objSet rest k v

/-- objDel m k models delete m[k]: drop the entry with key k. -/
def objDel {α : Type} : List (String × α) → String → List (String × α)
  | [], _ => []
  | (k', v') :: rest, k => if k' = k then rest else (k', v') :: objDel rest k

/-- getD0 m k models (m[k] ?? 0). -/
def getD0 (m : List (String × ℤ)) (k : String) : ℤ :=
  (getVal m k).getD 0

/-- setAdd s x models s.add(x) on a Set: append if absent. -/
def setAdd (s : List String) (x : String) : List String :=
  if x ∈ s then s else s ++ [x]

/-! ### Data model (the room object built in the room:create handler) -/

inductive Phase
  | LOBBY
  | CLUE
  | GUESS
  | REVEAL
  | GAMEOVER
deriving DecidableEq

structure Player where
  id : String
  name : String
deriving DecidableEq

/-- One value of the perPlayer record built in revealRound:
{guess, dist, pts}, with guess and dist null when the player never
submitted a guess. -/
structure PerPlayerEntry where
  guess : Option ℚ
  dist : Option ℚ
  pts : ℕ
deriving DecidableEq

/-- The lastReveal snapshot assembled in revealRound (index.js 210-218). -/
structure RevealSnap where
  target : Option ℤ
  finalGuess : ℤ
  dist : ℚ
  delta : ℕ
  total : ℤ
  perPlayer : List (String × PerPlayerEntry)
  cluePts : ℤ
deriving DecidableEq

/-- One row of the game-over leaderboard. -/
structure LeaderRow where
  id : String
  name : String
  score : ℤ
deriving DecidableEq

structure Room where
  code : String
  hostId : Option String
  players : List Player
  playerScores : List (String × ℤ)
  phase : Phase
  cluegiverId : Option String
  spectrum : Option Prompt
  target : Option ℤ
  clue : List Char
  guesses : List (String × ℚ)
  locked : List String
  finalGuess : Option ℤ
  lastReveal : Option RevealSnap
  score : ℤ
  promptPool : List Prompt
  totalRounds : ℤ
  currentRound : ℤ
deriving DecidableEq

/-- The per-recipient payload built by safeRoomState. secretTarget is
Option-of-Option: the outer none means the field is absent from the
payload, some x means the field is present holding x. -/
structure SafeState where
  code : String
  hostId : Option String
  players : List Player
  playerScores : List (String × ℤ)
  phase : Phase
  cluegiverId : Option String
  spectrum : Option Prompt
  clue : List Char
  guesses : List (String × ℚ)
  locked : List String
  score : ℤ
  finalGuess : Option ℤ
  lastReveal : Option RevealSnap
  promptPoolCount : ℕ
  totalRounds : ℤ
  currentRound : ℤ
  leaderboard : Option (List LeaderRow)
  secretTarget : Option (Option ℤ)
deriving DecidableEq

/-- Outbound events emitted by the handlers, tagged with the destination
connection id. -/
inductive OutEvent
  | roomJoined (dest : String) (code : String)
  | roomError (dest : String) (message : String)
  | roomState (dest : String) (st : SafeState)
deriving DecidableEq

/-! ### Broadcast (index.js 93-130) -/

/-- Stable insertion of x into a list sorted by the boolean relation le. -/
def ordInsert {α : Type} (le : α → α → Bool) (x : α) : List α → List α
  | [] => [x]
  | y :: ys => if le x y then x :: y :: ys else y :: ordInsert le x ys

/-- Stable comparator sort, modelling Array.prototype.sort. -/
def insSort {α : Type} (le : α → α → Bool) : List α → List α
  | [] => []
  | x :: xs => ordInsert le x (insSort le xs)

/-- leaderboard from index.js 93-97: rows for every player, sorted by
score descending then name ascending. -/
def leaderboard (room : Room) : List LeaderRow :=
  insSort
    (fun a b => decide (b.score < a.score ∨ (a.score = b.score ∧ a.name ≤ b.name)))
    (room.players.map (fun p => ⟨p.id, p.name, getD0 room.playerScores p.id⟩))

/-- safeRoomState from index.js 99-124: the base payload, plus the
secretTarget field exactly when the recipient is the clue-giver and the
phase is CLUE. -/
def safeRoomState (room : Room) (forPlayerId : String) : SafeState :=
  { code := room.code
    hostId := room.hostId
    players := room.players
    playerScores := room.playerScores
    phase := room.phase
    cluegiverId := room.cluegiverId
    spectrum := room.spectrum
    clue := room.clue
    guesses := room.guesses
    locked := room.locked
    score := room.score
    finalGuess := room.finalGuess
    lastReveal := room.lastReveal
    promptPoolCount := room.promptPool.length
    totalRounds := room.totalRounds
    currentRound := room.currentRound
    leaderboard := if room.phase = Phase.GAMEOVER then some (leaderboard room) else none
    secretTarget :=
      if room.cluegiverId = some forPlayerId ∧ room.phase = Phase.CLUE
      then some room.target else none }

/-- broadcastRoom from index.js 126-130: one room:state event per current
player, each with its own safeRoomState payload. -/
def broadcastRoom (room : Room) : List OutEvent :=
  room.players.map (fun p => OutEvent.roomState p.id (safeRoomState room p.id))

/-! ### Round machinery (index.js 132-233) -/

/-- rotateCluegiver from index.js 132-136. On an empty player list the
source would fail (players[nextIdx] is undefined); empty rooms are deleted
by the disconnect handler, so that branch is left as the identity. -/
def rotateCluegiver (room : Room) : Room :=
  match room.players with
  | [] => room
  | p0 :: _ =>
    match room.players.findIdx? (fun p => room.cluegiverId = some p.id) with
    | some idx =>
      { room with
        cluegiverId := (room.players.get? ((idx + 1) % room.players.length)).map Player.id }
    | none => { room with cluegiverId := some p0.id }

/-- startRound from index.js 138-153. The two random draws (spectrum pick
and target) are passed in as oracle arguments. -/
def startRound (spec : Prompt) (tgt : ℤ) (room : Room) : Room × List OutEvent :=
  let room1 := rotateCluegiver { room with phase := Phase.CLUE }
  let room2 :=
    { room1 with
      spectrum := some spec
      target := some tgt
      clue := []
      guesses := []
      locked := []
      finalGuess := none
      lastReveal := none }
  (room2, broadcastRoom room2)

/-- The target as it enters the arithmetic of revealRound: a null target
coerces to 0 in the source's subtractions. -/
def targetQ (room : Room) : ℚ :=
  ((room.target.getD 0 : ℤ) : ℚ)

/-- The guessers of the current round: every player other than the
clue-giver. This expression occurs verbatim at index.js lines 156, 175
and 347. -/
def guessersOf (room : Room) : List Player :=
  room.players.filter (fun p => ¬(room.cluegiverId = some p.id))

/-- The perPlayer value the revealRound loop computes for one guesser. -/
def mkEntry (guesses : List (String × ℚ)) (tgt : ℚ) (p : Player) : PerPlayerEntry :=
  match getVal guesses p.id with
  | some gv => ⟨some gv, some |gv - tgt|, scoreFromDistance |gv - tgt|⟩
  | none => ⟨none, none, 0⟩

/-- computeFinalGuess from index.js 155-165: rounded mean of the guesses
of the locked guessers that are numbers, defaulting to 50. -/
def computeFinalGuess (room : Room) : ℤ :=
  let guessers := (guessersOf room).map Player.id
  let lockedGuessers := guessers.filter (fun id => id ∈ room.locked)
  let values := lockedGuessers.filterMap (fun id => getVal room.guesses id)
  if values.length = 0 then 50
  else jsRound (values.sum / (values.length : ℚ))

/-- Accumulator of the guesser loop in revealRound (index.js 182-195). -/
structure GuesserAcc where
  perPlayer : List (String × PerPlayerEntry)
  scores : List (String × ℤ)
  sumPoints : ℕ
  counted : ℕ
deriving DecidableEq

/-- processGuessers models the for-loop of revealRound over the guessers:
it builds the perPlayer record, updates playerScores entry by entry, and
accumulates sumPoints and counted. -/
def processGuessers (guesses : List (String × ℚ)) (tgt : ℚ) :
    List Player → List (String × ℤ) → GuesserAcc
  | [], scores => ⟨[], scores, 0, 0⟩
  | p :: ps, scores =>
    match getVal guesses p.id with
    | some gv =>
      let d := |gv - tgt|
      let pts := scoreFromDistance d
      let acc := processGuessers guesses tgt ps (objSet scores p.id (getD0 scores p.id + pts))
      ⟨(p.id, ⟨some gv, some d, pts⟩) :: acc.perPlayer, acc.scores,
       pts + acc.sumPoints, 1 + acc.counted⟩
    | none =>
      let acc := processGuessers guesses tgt ps (objSet scores p.id (getD0 scores p.id + 0))
      ⟨(p.id, ⟨none, none, 0⟩) :: acc.perPlayer, acc.scores, acc.sumPoints, acc.counted⟩

/-- revealRound from index.js 167-221. A null target coerces to 0 in the
source's arithmetic, modelled by Option.getD 0. -/
def revealRound (room : Room) : Room × List OutEvent :=
  let finalGuess := computeFinalGuess room
  let tgt : ℚ := targetQ room
  let acc := processGuessers room.guesses tgt (guessersOf room) room.playerScores
  let cluePts : ℤ :=
    if 0 < acc.counted then jsRound ((acc.sumPoints : ℚ) / (acc.counted : ℚ)) else 0
  let scores2 :=
    match room.cluegiverId with
    | some cg => objSet acc.scores cg (getD0 acc.scores cg + cluePts)
    | none => acc.scores
  let score' := room.score + (acc.sumPoints : ℤ)
  let teamDist : ℚ := |(finalGuess : ℚ) - tgt|
  let teamDelta := scoreFromDistance teamDist
  let room2 :=
    { room with
      phase := Phase.REVEAL
      finalGuess := some finalGuess
      playerScores := scores2
      score := score'
      lastReveal := some
        { target := room.target
          finalGuess := finalGuess
          dist := teamDist
          delta := teamDelta
          total := score'
          perPlayer := acc.perPlayer
          cluePts := cluePts } }
  (room2, broadcastRoom room2)

/-- endGame from index.js 223-233: phase GAMEOVER and all round state
cleared, including the lastReveal snapshot and the target. -/
def endGame (room : Room) : Room × List OutEvent :=
  let room' :=
    { room with
      phase := Phase.GAMEOVER
      spectrum := none
      target := none
      clue := []
      guesses := []
      locked := []
      finalGuess := none
      lastReveal := none }
  (room', broadcastRoom room')

/-! ### Inbound event handlers (index.js 235-402) -/

/-- jsOrName models (name || a default): the default replaces an empty
(falsy) name. -/
def jsOrName (name : String) : String :=
  if name = "" then "Player" else name

/-- Players scores reset loop of game:start / game:replay:
for each current player set the score entry to 0. -/
def resetScores (scores : List (String × ℤ)) (players : List Player) :
    List (String × ℤ) :=
  players.foldl (fun m p => objSet m p.id 0) scores

/-- The room mutation of the room:join handler (index.js 273-276): append
the player if not already present and default their score entry to 0. -/
def joinRoomUpdate (room : Room) (sender name : String) : Room :=
  if room.players.any (fun p => p.id = sender) then room
  else
    { room with
      players := room.players ++ [⟨sender, jsOrName name⟩]
      playerScores := objSet room.playerScores sender (getD0 room.playerScores sender) }

/-- room:join handler (index.js 269-281), acting on the room registry:
unknown code is answered with a room:error, otherwise the player is added
and the updated state broadcast. -/
def handleRoomJoin (rooms : List (String × Room)) (sender code name : String) :
    List (String × Room) × List OutEvent :=
  match getVal rooms code with
  | none => (rooms, [OutEvent.roomError sender ("Room not found.")])
  | some room =>
    let room' := joinRoomUpdate room sender name
    (objSet rooms code room', OutEvent.roomJoined sender code :: broadcastRoom room')

/-- prompts:set handler (index.js 283-290). -/
def handlePromptsSet (room : Room) (sender : String) (text : List Char) :
    Room × List OutEvent :=
  if ¬(room.hostId = some sender) then (room, [])
  else if ¬(room.phase = Phase.LOBBY) then (room, [])
  else
    let room' := { room with promptPool := parsePromptLines text }
    (room', broadcastRoom room')

/-- config:setRounds handler (index.js 292-299). -/
def handleConfigSetRounds (room : Room) (sender : String) (totalRounds : Option ℚ) :
    Room × List OutEvent :=
  if ¬(room.hostId = some sender) then (room, [])
  else if ¬(room.phase = Phase.LOBBY) then (room, [])
  else
    let room' :=
      { room with totalRounds := clampInt totalRounds 1 50 (jsOr room.totalRounds 5) }
    (room', broadcastRoom room')

/-- game:start handler (index.js 301-316). The totalRounds payload field
is Option-of-Option: outer none is a null/undefined field (the != null
test), inner none a non-finite number. Note the handler checks only the
host guard and the player count, never the phase. -/
def handleGameStart (room : Room) (sender : String) (tr : Option (Option ℚ))
    (spec : Prompt) (tgt : ℤ) : Room × List OutEvent :=
  if ¬(room.hostId = some sender) then (room, [])
  else if room.players.length < 2 then
    (room, [OutEvent.roomError sender ("Need at least 2 players.")])
  else
    let room1 :=
      match tr with
      | none => room
      | some v => { room with totalRounds := clampInt v 1 50 (jsOr room.totalRounds 5) }
    let room2 :=
      { room1 with
        score := 0
        playerScores := resetScores room1.playerScores room1.players
        currentRound := 1
        cluegiverId := (room1.players.getLast?).map Player.id }
    startRound spec tgt room2

/-- round:clue handler (index.js 318-327). -/
def handleRoundClue (room : Room) (sender : String) (text : List Char) :
    Room × List OutEvent :=
  if ¬(room.phase = Phase.CLUE) then (room, [])
  else if ¬(room.cluegiverId = some sender) then (room, [])
  else
    let room' := { room with clue := text.take 140, phase := Phase.GUESS }
    (room', broadcastRoom room')

/-- round:guess handler (index.js 329-337). -/
def handleRoundGuess (room : Room) (sender : String) (value : Option ℚ) :
    Room × List OutEvent :=
  if ¬(room.phase = Phase.GUESS) then (room, [])
  else if room.cluegiverId = some sender then (room, [])
  else
    let room' := { room with guesses := objSet room.guesses sender (clamp01_100 value) }
    (room', broadcastRoom room')

/-- round:lock handler (index.js 339-351): add the sender to the locked
set; if afterwards every guesser is locked, reveal, else just broadcast. -/
def handleRoundLock (room : Room) (sender : String) : Room × List OutEvent :=
  if ¬(room.phase = Phase.GUESS) then (room, [])
  else if room.cluegiverId = some sender then (room, [])
  else
    let room1 := { room with locked := setAdd room.locked sender }
    if (guessersOf room1).all (fun p => p.id ∈ room1.locked) then revealRound room1
    else (room1, broadcastRoom room1)

/-- round:revealNow handler (index.js 353-359). -/
def handleRoundRevealNow (room : Room) (sender : String) : Room × List OutEvent :=
  if ¬(room.hostId = some sender) then (room, [])
  else if ¬(room.phase = Phase.GUESS) then (room, [])
  else revealRound room

/-- round:next handler (index.js 361-371). -/
def handleRoundNext (room : Room) (sender : String) (spec : Prompt) (tgt : ℤ) :
    Room × List OutEvent :=
  if ¬(room.hostId = some sender) then (room, [])
  else if ¬(room.phase = Phase.REVEAL) then (room, [])
  else if room.totalRounds ≤ room.currentRound then endGame room
  else startRound spec tgt { room with currentRound := room.currentRound + 1 }

/-- game:replay handler (index.js 373-384). Like game:start it checks
only the host guard, never the phase. -/
def handleGameReplay (room : Room) (sender : String) (spec : Prompt) (tgt : ℤ) :
    Room × List OutEvent :=
  if ¬(room.hostId = some sender) then (room, [])
  else
    let room1 :=
      { room with
        score := 0
        playerScores := resetScores room.playerScores room.players
        currentRound := 1
        cluegiverId := (room.players.getLast?).map Player.id }
    startRound spec tgt room1

/-- Per-room body of the disconnect handler (index.js 386-401). The first
component none means the room was deleted from the registry. -/
def handleDisconnect (room : Room) (sender : String) :
    Option Room × List OutEvent :=
  let players' := room.players.filter (fun p => ¬(p.id = sender))
  if players'.length = room.players.length then (some room, [])
  else
    let room' :=
      { room with
        players := players'
        playerScores := objDel room.playerScores sender
        hostId := if room.hostId = some sender then players'.head?.map Player.id
                  else room.hostId
        cluegiverId := if room.cluegiverId = some sender then players'.head?.map Player.id
                       else room.cluegiverId }
    if players'.length = 0 then (none, [])
    else (some room', broadcastRoom room')

/-! ### Event dispatch and the guard predicates of claim C2 -/

/-- The room-directed inbound events; the random draws consumed by
game:start, round:next and game:replay ride along as oracle data. -/
inductive GEvent
  | promptsSet (text : List Char)
  | configSetRounds (tr : Option ℚ)
  | gameStart (tr : Option (Option ℚ)) (spec : Prompt) (tgt : ℤ)
  | roundClue (text : List Char)
  | roundGuess (v : Option ℚ)
  | roundLock
  | roundRevealNow
  | roundNext (spec : Prompt) (tgt : ℤ)
  | gameReplay (spec : Prompt) (tgt : ℤ)

/-- Dispatch of a room-directed event to its handler. -/
def step (room : Room) (sender : String) : GEvent → Room × List OutEvent
  | .promptsSet text => handlePromptsSet room sender text
  | .configSetRounds tr => handleConfigSetRounds room sender tr
  | .gameStart tr spec tgt => handleGameStart room sender tr spec tgt
  | .roundClue text => handleRoundClue room sender text
  | .roundGuess v => handleRoundGuess room sender v
  | .roundLock => handleRoundLock room sender
  | .roundRevealNow => handleRoundRevealNow room sender
  | .roundNext spec tgt => handleRoundNext room sender spec tgt
  | .gameReplay spec tgt => handleGameReplay room sender spec tgt

/-- The guard violations that the code actually ignores silently: the
actor guards of all nine handlers and the phase guards of the seven
handlers that have one; game:start and game:replay carry no phase guard. -/
def guardViolatedAm (room : Room) (sender : String) : GEvent → Prop
  | .promptsSet _ => ¬(room.hostId = some sender) ∨ ¬(room.phase = Phase.LOBBY)
  | .configSetRounds _ => ¬(room.hostId = some sender) ∨ ¬(room.phase = Phase.LOBBY)
  | .gameStart _ _ _ => ¬(room.hostId = some sender)
  | .roundClue _ => ¬(room.phase = Phase.CLUE) ∨ ¬(room.cluegiverId = some sender)
  | .roundGuess _ => ¬(room.phase = Phase.GUESS) ∨ room.cluegiverId = some sender
  | .roundLock => ¬(room.phase = Phase.GUESS) ∨ room.cluegiverId = some sender
  | .roundRevealNow => ¬(room.hostId = some sender) ∨ ¬(room.phase = Phase.GUESS)
  | .roundNext _ _ => ¬(room.hostId = some sender) ∨ ¬(room.phase = Phase.REVEAL)
  | .gameReplay _ _ => ¬(room.hostId = some sender)

instance (room : Room) (sender : String) (ev : GEvent) :
    Decidable (guardViolatedAm room sender ev) :=
  match ev with
  | .promptsSet _ => inferInstanceAs (Decidable (_ ∨ _))
  | .configSetRounds _ => inferInstanceAs (Decidable (_ ∨ _))
  | .gameStart _ _ _ => inferInstanceAs (Decidable ¬_)
  | .roundClue _ => inferInstanceAs (Decidable (_ ∨ _))
  | .roundGuess _ => inferInstanceAs (Decidable (_ ∨ _))
  | .roundLock => inferInstanceAs (Decidable (_ ∨ _))
  | .roundRevealNow => inferInstanceAs (Decidable (_ ∨ _))
  | .roundNext _ _ => inferInstanceAs (Decidable (_ ∨ _))
  | .gameReplay _ _ => inferInstanceAs (Decidable ¬_)

/-- The guard notion of claim C2 itself: wrong actor or wrong From-phase
according to the transition table, for every event. -/
def claimGuardViolated (room : Room) (sender : String) : GEvent → Prop
  | .promptsSet _ => ¬(room.hostId = some sender) ∨ ¬(room.phase = Phase.LOBBY)
  | .configSetRounds _ => ¬(room.hostId = some sender) ∨ ¬(room.phase = Phase.LOBBY)
  | .gameStart _ _ _ => ¬(room.hostId = some sender) ∨ ¬(room.phase = Phase.LOBBY)
  | .roundClue _ => ¬(room.phase = Phase.CLUE) ∨ ¬(room.cluegiverId = some sender)
  | .roundGuess _ => ¬(room.phase = Phase.GUESS) ∨ room.cluegiverId = some sender
  | .roundLock => ¬(room.phase = Phase.GUESS) ∨ room.cluegiverId = some sender
  | .roundRevealNow => ¬(room.hostId = some sender) ∨ ¬(room.phase = Phase.GUESS)
  | .roundNext _ _ => ¬(room.hostId = some sender) ∨ ¬(room.phase = Phase.REVEAL)
  | .gameReplay _ _ => ¬(room.hostId = some sender) ∨ ¬(room.phase = Phase.GAMEOVER)

instance (room : Room) (sender : String) (ev : GEvent) :
    Decidable (claimGuardViolated room sender ev) :=
  match ev with
  | .promptsSet _ => inferInstanceAs (Decidable (_ ∨ _))
  | .configSetRounds _ => inferInstanceAs (Decidable (_ ∨ _))
  | .gameStart _ _ _ => inferInstanceAs (Decidable (_ ∨ _))
  | .roundClue _ => inferInstanceAs (Decidable (_ ∨ _))
  | .roundGuess _ => inferInstanceAs (Decidable (_ ∨ _))
  | .roundLock => inferInstanceAs (Decidable (_ ∨ _))
  | .roundRevealNow => inferInstanceAs (Decidable (_ ∨ _))
  | .roundNext _ _ => inferInstanceAs (Decidable (_ ∨ _))
  | .gameReplay _ _ => inferInstanceAs (Decidable (_ ∨ _))

/-- The invariant of claim C7: every locked id belongs to a current
player and is never the clue-giver. -/
def lockedInv (room : Room) : Prop :=
  ∀ id ∈ room.locked, id ∈ room.players.map Player.id ∧ ¬(room.cluegiverId = some id)

instance (room : Room) : Decidable (lockedInv room) :=
  inferInstanceAs (Decidable (∀ id ∈ room.locked, _ ∧ _))

/-! ### Spec-side definitions used to state and refute claims -/

/-- Modelled from claim C1's formula: the value v is rounded to the
nearest integer and then clamped to [0,100]; non-finite input stores 50. -/
def claimStoredGuess (v : Option ℚ) : ℤ :=
  match v with
  | none => 50
  | some q => jsMaxI 0 (jsMinI 100 (jsRound q))

/-- The delimiter the parser settles on, in the priority order of the
if/else chain. -/
def chooseDelim (line : List Char) : Option (List Char) :=
  if containsSub ['|'] line then some ['|']
  else if containsSub [','] line then some [',']
  else if containsSub ['-', '>'] line then some ['-', '>']
  else if containsSub ['—'] line then some ['—']
  else none

/-- Modelled from claim C9's words: the line is split at the FIRST
occurrence of the chosen delimiter, the left side being everything before
it and the right side everything after it. -/
def claimParseLine (line : List Char) : Option Prompt :=
  match chooseDelim line with
  | none => none
  | some sep =>
    match firstOcc sep line with
    | none => none
    | some i =>
      let l := trimChars (line.take i)
      let r := trimChars (line.drop (i + sep.length))
      if l ≠ [] ∧ r ≠ [] ∧ l.length ≤ 50 ∧ r.length ≤ 50 then some ⟨l, r⟩ else none

/-- The whole parser as described by claim C9. -/
def claimParsePromptLines (text : List Char) : List Prompt :=
  ((nonBlankLines text).filterMap claimParseLine).take 250

/-- The segment of s between the first and the second occurrence of sep
(everything after the first occurrence when there is no second one). -/
def secondSeg (sep s : List Char) (i : ℕ) : List Char :=
  let rest := s.drop (i + sep.length)
  match firstOcc sep rest with
  | none => rest
  | some j => rest.take j

/-- The amended per-line rule: like claim C9 but the right side is only
the segment between the first and the second occurrence of the chosen
delimiter; text after a second occurrence is discarded. -/
def amendedParseLine (line : List Char) : Option Prompt :=
  match chooseDelim line with
  | none => none
  | some sep =>
    match firstOcc sep line with
    | none => none
    | some i =>
      let l := trimChars (line.take i)
      let r := trimChars (secondSeg sep line i)
      if l ≠ [] ∧ r ≠ [] ∧ l.length ≤ 50 ∧ r.length ≤ 50 then some ⟨l, r⟩ else none

/-! ### Concrete rooms for counterexamples and witnesses -/

def pA : Player := ⟨"A", "Alice"⟩
def pB : Player := ⟨"B", "Bob"⟩
def pC : Player := ⟨"C", "Carol"⟩

def exPrompt : Prompt := ⟨"Cold".toList, "Hot".toList⟩

/-- A two-player room in phase GUESS, clue-giver A, empty guess map. -/
def exRoomGuess : Room :=
  { code := "R1"
    hostId := some "A"
    players := [pA, pB]
    playerScores := [("A", 0), ("B", 0)]
    phase := Phase.GUESS
    cluegiverId := some "A"
    spectrum := some exPrompt
    target := some 50
    clue := "warm".toList
    guesses := []
    locked := []
    finalGuess := none
    lastReveal := none
    score := 0
    promptPool := []
    totalRounds := 5
    currentRound := 1 }

/-- A two-player room still in the LOBBY. -/
def exRoomLobby : Room :=
  { exRoomGuess with
    phase := Phase.LOBBY
    spectrum := none
    target := none
    clue := [] }

/-- A one-player room in the LOBBY. -/
def exRoomSolo : Room :=
  { exRoomLobby with
    players := [pA]
    playerScores := [("A", 0)] }

/-- A reveal snapshot as produced by a finished round. -/
def exSnap : RevealSnap :=
  { target := some 50
    finalGuess := 45
    dist := 5
    delta := 4
    total := 4
    perPlayer := [("B", ⟨some 45, some 5, 4⟩)]
    cluePts := 4 }

/-- A two-player room sitting in phase REVEAL with a reveal snapshot. -/
def exRoomReveal : Room :=
  { exRoomGuess with
    phase := Phase.REVEAL
    guesses := [("B", 45)]
    locked := ["B"]
    finalGuess := some 45
    lastReveal := some exSnap
    playerScores := [("A", 4), ("B", 4)]
    score := 4 }

/-- A three-player room mid-GUESS where B has guessed 45 and locked. -/
def exRoomMid : Room :=
  { exRoomGuess with
    players := [pA, pB, pC]
    playerScores := [("A", 0), ("B", 0), ("C", 0)]
    guesses := [("B", 45)]
    locked := ["B"] }

/-- The room left behind when B disconnects from exRoomMid. -/
def roomAfterMid : Room :=
  ((handleDisconnect exRoomMid "B").1).getD exRoomMid

/-! ### Lemmas about the association-list stores -/

theorem getVal_objSet_self {α : Type} (m : List (String × α)) (k : String) (v : α) :
    getVal (objSet m k v) k = some v := by
  induction m with
  | nil => simp [objSet, getVal]
  | cons e rest ih =>
    obtain ⟨k', v'⟩ := e
    by_cases h : k' = k
    · simp [objSet, h, getVal]
    · simp [objSet, h, getVal, ih]

theorem getVal_objSet_ne {α : Type} (m : List (String × α)) (k k' : String) (v : α)
    (h : ¬(k = k')) : getVal (objSet m k v) k' = getVal m k' := by
  induction m with
  | nil => simp [objSet, getVal, h]
  | cons e rest ih =>
    obtain ⟨k0, v0⟩ := e
    by_cases h0 : k0 = k
    · subst h0
      simp [objSet, getVal, h]
    · simp only [objSet, h0, if_false, getVal]
      by_cases h1 : k0 = k'
      · simp [h1]
      · simp [h1, ih]

theorem getVal_not_mem {α : Type} (m : List (String × α)) (k : String)
    (h : ¬(k ∈ m.map Prod.fst)) : getVal m k = none := by
  induction m with
  | nil => rfl
  | cons e rest ih =>
    obtain ⟨k0, v0⟩ := e
    simp only [List.map_cons, List.mem_cons, not_or] at h
    have h0 : ¬(k0 = k) := fun hk => h.1 hk.symm
    simp [getVal, h0, ih h.2]

theorem mem_of_getVal_eq_some {α : Type} (m : List (String × α)) (k : String) (v : α)
    (h : getVal m k = some v) : (k, v) ∈ m := by
  induction m with
  | nil => simp [getVal] at h
  | cons e rest ih =>
    obtain ⟨k0, v0⟩ := e
    by_cases h0 : k0 = k
    · subst h0
      simp only [getVal, if_true, eq_self_iff_true, Option.some.injEq, ite_true] at h
      subst h
      exact List.mem_cons_self _ _
    · simp only [getVal, if_neg h0] at h
      exact List.mem_cons_of_mem _ (ih h)

/-- Lookup in an association list built by mapping players to keyed
values: with no duplicate ids, the entry of a member is its value. -/
theorem getVal_map_entries {α : Type} (f : Player → α) (ps : List Player)
    (hnd : (ps.map Player.id).Nodup) (p : Player) (hp : p ∈ ps) :
    getVal (ps.map (fun q => (q.id, f q))) p.id = some (f p) := by
  induction ps with
  | nil => cases hp
  | cons q ps ih =>
    simp only [List.map_cons, List.nodup_cons] at hnd
    rcases List.mem_cons.mp hp with rfl | hp'
    · simp [getVal]
    · have hne : ¬(q.id = p.id) := fun he => hnd.1 (he ▸ List.mem_map_of_mem Player.id hp')
      simp [getVal, hne, ih hnd.2 hp']

/-! ### Lemmas about the guesser loop of revealRound -/

theorem processGuessers_perPlayer (g : List (String × ℚ)) (t : ℚ) (ps : List Player) :
    ∀ s, (processGuessers g t ps s).perPlayer = ps.map (fun p => (p.id, mkEntry g t p)) := by
  induction ps with
  | nil => intro s; rfl
  | cons p ps ih =>
    intro s
    cases h : getVal g p.id <;> simp [processGuessers, h, mkEntry, ih]

theorem processGuessers_sumPoints (g : List (String × ℚ)) (t : ℚ) (ps : List Player) :
    ∀ s, (processGuessers g t ps s).sumPoints =
      (ps.filterMap (fun p => (getVal g p.id).map
        (fun gv => scoreFromDistance |gv - t|))).sum := by
  induction ps with
  | nil => intro s; rfl
  | cons p ps ih =>
    intro s
    cases h : getVal g p.id <;> simp [processGuessers, h, ih]

theorem processGuessers_counted (g : List (String × ℚ)) (t : ℚ) (ps : List Player) :
    ∀ s, (processGuessers g t ps s).counted =
      (ps.filterMap (fun p => (getVal g p.id).map
        (fun gv => scoreFromDistance |gv - t|))).length := by
  induction ps with
  | nil => intro s; rfl
  | cons p ps ih =>
    intro s
    cases h : getVal g p.id <;> simp [processGuessers, h, ih, Nat.add_comm]

theorem processGuessers_scores_frame (g : List (String × ℚ)) (t : ℚ) (ps : List Player)
    (k : String) (h : ¬(k ∈ ps.map Player.id)) :
    ∀ s, getVal (processGuessers g t ps s).scores k = getVal s k := by
  induction ps with
  | nil => intro s; rfl
  | cons p ps ih =>
    intro s
    simp only [List.map_cons, List.mem_cons, not_or] at h
    have hpk : ¬(p.id = k) := fun he => h.1 he.symm
    cases hg : getVal g p.id <;>
      simp [processGuessers, hg, ih (fun hk => h.2 hk), getVal_objSet_ne _ _ _ _ hpk]

theorem processGuessers_scores_update (g : List (String × ℚ)) (t : ℚ) (ps : List Player)
    (hnd : (ps.map Player.id).Nodup) (p : Player) (hp : p ∈ ps) :
    ∀ s, getD0 (processGuessers g t ps s).scores p.id =
      getD0 s p.id + ((mkEntry g t p).pts : ℤ) := by
  induction ps with
  | nil => cases hp
  | cons q ps ih =>
    intro s
    simp only [List.map_cons, List.nodup_cons] at hnd
    rcases List.mem_cons.mp hp with rfl | hp'
    · have hq : ¬(p.id ∈ ps.map Player.id) := hnd.1
      cases hg : getVal g p.id with
      | some gv =>
        simp only [processGuessers, hg, getD0]
        rw [processGuessers_scores_frame g t ps p.id hq, getVal_objSet_self]
        simp [mkEntry, hg, getD0]
      | none =>
        simp only [processGuessers, hg, getD0]
        rw [processGuessers_scores_frame g t ps p.id hq, getVal_objSet_self]
        simp [mkEntry, hg, getD0]
    · have hne : ¬(q.id = p.id) :=
        fun he => hnd.1 (he ▸ List.mem_map_of_mem Player.id hp')
      cases hg : getVal g q.id with
      | some gv =>
        simp only [processGuessers, hg]
        rw [ih hnd.2 hp']
        simp [getD0, getVal_objSet_ne _ _ _ _ hne]
      | none =>
        simp only [processGuessers, hg]
        rw [ih hnd.2 hp']
        simp [getD0, getVal_objSet_ne _ _ _ _ hne]

/-- The pts field of a perPlayer entry, as the claim writes it: the tier
points of the guess, or 0 when no guess was submitted. -/
theorem mkEntry_pts (g : List (String × ℚ)) (t : ℚ) (p : Player) :
    (mkEntry g t p).pts =
      ((getVal g p.id).map (fun gv => scoreFromDistance |gv - t|)).getD 0 := by
  cases h : getVal g p.id <;> simp [mkEntry, h]

/-- Total of an optional-points list: dropped entries count as zero. -/
theorem sum_filterMap_eq_sum_map {α : Type} (f : α → Option ℕ) (l : List α) :
    (l.filterMap f).sum = (l.map (fun a => (f a).getD 0)).sum := by
  induction l with
  | nil => rfl
  | cons a l ih =>
    cases h : f a <;> simp [h, ih]

/-- The id list of the guessers is duplicate-free whenever the room's
player ids are. -/
theorem guessersOf_ids_nodup (room : Room) (hnd : (room.players.map Player.id).Nodup) :
    ((guessersOf room).map Player.id).Nodup :=
  hnd.sublist (List.Sublist.map Player.id (List.filter_sublist room.players))

/-! ### Lemmas about substring search and split -/

theorem firstOcc_nil (sep : List Char) (hsep : ¬(sep = [])) :
    firstOcc sep [] = none := by
  simp [firstOcc, hsep]

theorem firstOcc_bound (sep : List Char) :
    ∀ (s : List Char) (i : ℕ), firstOcc sep s = some i → i + sep.length ≤ s.length := by
  intro s
  induction s with
  | nil =>
    intro i h
    by_cases hsep : sep = []
    · subst hsep
      simp [firstOcc] at h
      simp [h]
    · simp [firstOcc, hsep] at h
  | cons c cs ih =>
    intro i h
    by_cases hpre : sep.isPrefixOf (c :: cs)
    · simp only [firstOcc, if_pos hpre] at h
      have hi : i = 0 := (Option.some.inj h).symm
      subst hi
      have hle : sep.length ≤ (c :: cs).length :=
        (List.isPrefixOf_iff_prefix.mp hpre).length_le
      simpa using hle
    · simp only [firstOcc, if_neg hpre] at h
      obtain ⟨j, hj, hji⟩ := Option.map_eq_some'.mp h
      subst hji
      have := ih j hj
      simp only [List.length_cons]
      omega

/-- The head segment of a split: everything before the first occurrence
of the separator, or the whole string when it never occurs. -/
theorem splitOnSub_get0 (sep : List Char) (hsep : ¬(sep = [])) (s : List Char) :
    (splitOnSub sep s).get? 0 =
      some (match firstOcc sep s with
            | none => s
            | some i => s.take i) := by
  unfold splitOnSub
  rw [if_neg hsep]
  cases hl : s.length with
  | zero =>
    have hs : s = [] := List.length_eq_zero.mp hl
    subst hs
    simp [splitOnSubAux, firstOcc_nil sep hsep]
  | succ fuel =>
    cases ho : firstOcc sep s <;> simp [splitOnSubAux, ho]

/-- Worker fact: with enough fuel the head of the split of the remainder
is the segment up to the next occurrence. -/
theorem splitOnSubAux_get0 (sep : List Char) (hsep : ¬(sep = [])) (fuel : ℕ) :
    ∀ s, s.length ≤ fuel →
      (splitOnSubAux sep fuel s).get? 0 =
        some (match firstOcc sep s with
              | none => s
              | some j => s.take j) := by
  induction fuel with
  | zero =>
    intro s hs
    have hnil : s = [] := List.length_eq_zero.mp (Nat.le_zero.mp hs)
    subst hnil
    simp [splitOnSubAux, firstOcc_nil sep hsep]
  | succ fuel ih =>
    intro s hs
    cases ho : firstOcc sep s <;> simp [splitOnSubAux, ho]

/-- The second segment of a split: the text between the first and the
second occurrence of the separator. -/
theorem splitOnSub_get1 (sep : List Char) (hsep : ¬(sep = [])) (s : List Char) (i : ℕ)
    (h : firstOcc sep s = some i) :
    (splitOnSub sep s).get? 1 = some (secondSeg sep s i) := by
  unfold splitOnSub
  rw [if_neg hsep]
  cases hl : s.length with
  | zero =>
    have hs : s = [] := List.length_eq_zero.mp hl
    subst hs
    rw [firstOcc_nil sep hsep] at h
    cases h
  | succ fuel =>
    have hb := firstOcc_bound sep s i h
    have hseplen : 1 ≤ sep.length := by
      cases sep with
      | nil => exact absurd rfl hsep
      | cons a l => simp
    have hrest : (s.drop (i + sep.length)).length ≤ fuel := by
      rw [List.length_drop]
      omega
    simp only [splitOnSubAux, h]
    rw [List.get?_cons_succ]
    rw [splitOnSubAux_get0 sep hsep fuel _ hrest]
    rfl

/-- splitPair in terms of occurrence indices, for a line that contains
the separator. -/
theorem splitPair_eq (sep line : List Char) (hsep : ¬(sep = [])) (i : ℕ)
    (h : firstOcc sep line = some i) :
    splitPair sep line =
      (some (trimChars (line.take i)), some (trimChars (secondSeg sep line i))) := by
  unfold splitPair
  rw [splitOnSub_get0 sep hsep line, splitOnSub_get1 sep hsep line i h, h]
  rfl

/-- The code's per-line parse (split, destructure the first two parts)
computes the amended rule: left of the first occurrence, and between the
first and the second occurrence. -/
theorem parseLine_eq_amendedParseLine (line : List Char) :
    parseLine line = amendedParseLine line := by
  unfold parseLine amendedParseLine chooseDelim
  by_cases h1 : containsSub ['|'] line
  · obtain ⟨i, hi⟩ := Option.isSome_iff_exists.mp h1
    simp only [h1, if_true]
    rw [splitPair_eq _ _ (by simp) i hi, hi]
  · simp only [h1, Bool.false_eq_true, if_false]
    by_cases h2 : containsSub [','] line
    · obtain ⟨i, hi⟩ := Option.isSome_iff_exists.mp h2
      simp only [h2, if_true]
      rw [splitPair_eq _ _ (by simp) i hi, hi]
    · simp only [h2, Bool.false_eq_true, if_false]
      by_cases h3 : containsSub ['-', '>'] line
      · obtain ⟨i, hi⟩ := Option.isSome_iff_exists.mp h3
        simp only [h3, if_true]
        rw [splitPair_eq _ _ (by simp) i hi, hi]
      · simp only [h3, Bool.false_eq_true, if_false]
        by_cases h4 : containsSub ['—'] line
        · obtain ⟨i, hi⟩ := Option.isSome_iff_exists.mp h4
          simp only [h4, if_true]
          rw [splitPair_eq _ _ (by simp) i hi, hi]
        · simp only [h4, Bool.false_eq_true, if_false]

/-! ### The values entering computeFinalGuess -/

/-- Under the data-model invariant that only guessers have entries in the
guess map, the code's chain (guessers, then locked, then present) equals
the claim's description: players who both guessed and locked. -/
theorem finalGuessValues_eq (players : List Player) (cg : Option String)
    (guesses : List (String × ℚ)) (locked : List String)
    (hg : ∀ id, ¬(getVal guesses id = none) → ¬(cg = some id)) :
    ((((players.filter (fun p => ¬(cg = some p.id))).map Player.id).filter
        (fun id => id ∈ locked)).filterMap (fun id => getVal guesses id)) =
      players.filterMap
        (fun p => if p.id ∈ locked then getVal guesses p.id else none) := by
  induction players with
  | nil => rfl
  | cons p ps ih =>
    by_cases hcg : cg = some p.id
    · have hnone : getVal guesses p.id = none := by
        by_contra hne
        exact hg p.id hne hcg
      have h1 : List.filter (fun q => ¬(cg = some q.id)) (p :: ps) =
          List.filter (fun q => ¬(cg = some q.id)) ps := by
        rw [List.filter_cons]
        simp [hcg]
      rw [h1, List.filterMap_cons]
      simp only [hnone, ite_self]
      exact ih
    · have h2 : List.filter (fun q => ¬(cg = some q.id)) (p :: ps) =
          p :: List.filter (fun q => ¬(cg = some q.id)) ps := by
        rw [List.filter_cons]
        simp [hcg]
      by_cases hl : p.id ∈ locked
      · have h3 : List.filter (fun id => id ∈ locked)
            (p.id :: (List.filter (fun q => ¬(cg = some q.id)) ps).map Player.id) =
            p.id :: List.filter (fun id => id ∈ locked)
              ((List.filter (fun q => ¬(cg = some q.id)) ps).map Player.id) := by
          rw [List.filter_cons]
          simp [hl]
        rw [h2, List.map_cons, h3, List.filterMap_cons, List.filterMap_cons, if_pos hl]
        cases hv : getVal guesses p.id with
        | none => exact ih
        | some v => exact congrArg (List.cons v) ih
      · have h3 : List.filter (fun id => id ∈ locked)
            (p.id :: (List.filter (fun q => ¬(cg = some q.id)) ps).map Player.id) =
            List.filter (fun id => id ∈ locked)
              ((List.filter (fun q => ¬(cg = some q.id)) ps).map Player.id) := by
          rw [List.filter_cons]
          simp [hl]
        rw [h2, List.map_cons, h3, List.filterMap_cons, if_neg hl]
        exact ih

theorem getD0_objSet_ne (m : List (String × ℤ)) (k k' : String) (v : ℤ)
    (h : ¬(k = k')) : getD0 (objSet m k v) k' = getD0 m k' := by
  unfold getD0
  rw [getVal_objSet_ne m k k' v h]

theorem getD0_objSet_self (m : List (String × ℤ)) (k : String) (v : ℤ) :
    getD0 (objSet m k v) k = v := by
  unfold getD0
  rw [getVal_objSet_self]
  rfl

theorem processGuessers_getD0_frame (g : List (String × ℚ)) (t : ℚ) (ps : List Player)
    (k : String) (h : ¬(k ∈ ps.map Player.id)) (s : List (String × ℤ)) :
    getD0 (processGuessers g t ps s).scores k = getD0 s k := by
  unfold getD0
  rw [processGuessers_scores_frame g t ps k h]

/-- The clue-giver is never one of the guessers. -/
theorem cluegiver_not_mem_guessers (room : Room) (cg : String)
    (hc : room.cluegiverId = some cg) :
    ¬(cg ∈ (guessersOf room).map Player.id) := by
  intro hmem
  obtain ⟨q, hq, hqid⟩ := List.mem_map.mp hmem
  have h2 : ¬(room.cluegiverId = some q.id) := by
    simpa using (List.mem_filter.mp hq).2
  exact h2 (by rw [hc, hqid])

/-! ### Field-level description of revealRound -/

/-- The cumulative score of a guesser after revealRound: the old score
plus the pts of that guesser's perPlayer entry. -/
theorem revealRound_guesser_getD0 (room : Room)
    (hnd : (room.players.map Player.id).Nodup)
    (p : Player) (hp : p ∈ room.players) (hcg : ¬(room.cluegiverId = some p.id)) :
    getD0 (revealRound room).1.playerScores p.id =
      getD0 room.playerScores p.id +
        ((mkEntry room.guesses (targetQ room) p).pts : ℤ) := by
  have hpg : p ∈ guessersOf room := by
    unfold guessersOf
    exact List.mem_filter.mpr ⟨hp, by simpa using hcg⟩
  have hgnd := guessersOf_ids_nodup room hnd
  have hupd := processGuessers_scores_update room.guesses (targetQ room) (guessersOf room)
    hgnd p hpg room.playerScores
  simp only [revealRound]
  cases hc : room.cluegiverId with
  | none => exact hupd
  | some cg =>
    have hne : ¬(cg = p.id) := fun he => hcg (by rw [hc, he])
    dsimp only
    rw [getD0_objSet_ne _ _ _ _ hne]
    exact hupd

/-- The cumulative score of the clue-giver after revealRound: the old
score plus the rounded mean of the scoring guessers' tier points. -/
theorem revealRound_cluegiver_getD0 (room : Room) (cg : String)
    (hc : room.cluegiverId = some cg) :
    getD0 (revealRound room).1.playerScores cg =
      getD0 room.playerScores cg +
        (if 0 < ((guessersOf room).filterMap (fun q => (getVal room.guesses q.id).map
            (fun gv => scoreFromDistance |gv - targetQ room|))).length
         then jsRound
           ((((guessersOf room).filterMap (fun q => (getVal room.guesses q.id).map
              (fun gv => scoreFromDistance |gv - targetQ room|))).sum : ℚ) /
            (((guessersOf room).filterMap (fun q => (getVal room.guesses q.id).map
              (fun gv => scoreFromDistance |gv - targetQ room|))).length : ℚ))
         else 0) := by
  have hnotin := cluegiver_not_mem_guessers room cg hc
  simp only [revealRound]
  rw [hc]
  dsimp only
  rw [getD0_objSet_self, processGuessers_getD0_frame _ _ _ _ hnotin,
    processGuessers_sumPoints, processGuessers_counted]

/-- The team score after revealRound: the old team score plus the sum of
the guessers' tier points (absent guesses counting zero). -/
theorem revealRound_score (room : Room) :
    (revealRound room).1.score = room.score +
      ((((guessersOf room).map (fun q => ((getVal room.guesses q.id).map
        (fun gv => scoreFromDistance |gv - targetQ room|)).getD 0)).sum : ℕ) : ℤ) := by
  simp only [revealRound]
  rw [processGuessers_sumPoints, sum_filterMap_eq_sum_map]

/-- The perPlayer record of the reveal snapshot: one entry per guesser,
in player order. -/
theorem revealRound_perPlayer (room : Room) :
    (revealRound room).1.lastReveal.map RevealSnap.perPlayer =
      some ((guessersOf room).map
        (fun p => (p.id, mkEntry room.guesses (targetQ room) p))) := by
  simp only [revealRound]
  rw [processGuessers_perPlayer]
  rfl

/-! ### Claim C1 -/

/-- C1 counterexample: a round:guess of one half from a non-clue-giver in
phase GUESS stores exactly one half, whereas the claim's formula
clamp(round(v), 0, 100) yields 1: values are not rounded before storing. -/
theorem c1_counterexample :
    getVal (handleRoundGuess exRoomGuess ("B") (some (1/2))).1.guesses ("B") =
      some (1/2) ∧
    claimStoredGuess (some (1/2)) = 1 ∧
    ¬((1/2 : ℚ) = ((1 : ℤ) : ℚ)) := by
  refine ⟨?_, ?_, ?_⟩
  · norm_num [handleRoundGuess, exRoomGuess, exPrompt, clamp01_100, jsMax, jsMin,
      getVal, objSet]
  · norm_num [claimStoredGuess, jsRound, jsMaxI, jsMinI]
  · norm_num

/-- C1 (amended): for every round:guess of value v received during GUESS
from a non-clue-giver, the stored guess for the sender equals
clamp(v, 0, 100) with no rounding; a non-finite v stores 50. -/
theorem c1_guess_stores_clamp (room : Room) (sender : String) (v : Option ℚ)
    (hph : room.phase = Phase.GUESS) (hcg : ¬(room.cluegiverId = some sender)) :
    getVal (handleRoundGuess room sender v).1.guesses sender =
      some (v.elim 50 (fun q => max 0 (min 100 q))) := by
  unfold handleRoundGuess
  rw [if_neg (by simp [hph]), if_neg hcg]
  dsimp only
  rw [getVal_objSet_self]
  cases v with
  | none => rfl
  | some q => simp [clamp01_100, jsMax, jsMin, max_def, min_def]

/-- C1 witness: the amended statement at a concrete room and value. -/
theorem c1_witness :
    exRoomGuess.phase = Phase.GUESS ∧
    ¬(exRoomGuess.cluegiverId = some ("B")) ∧
    getVal (handleRoundGuess exRoomGuess ("B") (some 70)).1.guesses ("B") =
      some ((some (70 : ℚ)).elim 50 (fun q => max 0 (min 100 q))) :=
  ⟨rfl, by decide, c1_guess_stores_clamp exRoomGuess ("B") (some 70) rfl (by decide)⟩

/-! ### Claim C9 -/

/-- C9 counterexample: on the line a|b|c the parser keeps only the
segment between the first and the second delimiter as the right side,
while the claim's split-at-first-occurrence rule would keep everything
after the first delimiter. -/
theorem c9_counterexample :
    parsePromptLines ("a|b|c".toList) = [⟨"a".toList, "b".toList⟩] ∧
    claimParsePromptLines ("a|b|c".toList) = [⟨"a".toList, "b|c".toList⟩] ∧
    ¬(("b".toList : List Char) = "b|c".toList) := by
  decide

/-- C9 (amended): the parser yields one pair per non-blank line, chosen
by delimiter priority, both sides trimmed, kept only when non-empty and
at most 50 characters, truncated to 250 pairs — but the right side is the
segment between the first and the second occurrence of the delimiter
(text after a second occurrence is dropped), not everything after the
first; the claim's example still parses to exactly its two pairs. -/
theorem c9_parse_lines (text : List Char) :
    parsePromptLines text =
      ((nonBlankLines text).filterMap amendedParseLine).take 250 ∧
    (parsePromptLines text).length ≤ 250 ∧
    parsePromptLines ("Cold | Hot\nBad,Good\nfoo".toList) =
      [⟨"Cold".toList, "Hot".toList⟩, ⟨"Bad".toList, "Good".toList⟩] := by
  refine ⟨?_, ?_, by decide⟩
  · unfold parsePromptLines
    rw [funext parseLine_eq_amendedParseLine]
  · unfold parsePromptLines
    exact List.length_take_le 250 _

/-! ### Claim C10 -/

/-- C10: processing a disconnect never changes the phase and never
triggers a reveal: whenever the room survives, both the phase and the
lastReveal snapshot are exactly what they were before. -/
theorem c10_disconnect_keeps_phase (room : Room) (sender : String) (r : Room)
    (h : (handleDisconnect room sender).1 = some r) :
    r.phase = room.phase ∧ r.lastReveal = room.lastReveal := by
  unfold handleDisconnect at h
  dsimp only at h
  split at h
  · cases h
    exact ⟨rfl, rfl⟩
  · split at h
    · cases h
    · cases h
      exact ⟨rfl, rfl⟩

/-- C10 witness: B disconnecting from a GUESS-phase room leaves the phase
and the (absent) reveal snapshot untouched. -/
theorem c10_witness :
    (handleDisconnect exRoomMid ("B")).1 = some roomAfterMid ∧
    roomAfterMid.phase = exRoomMid.phase ∧
    roomAfterMid.lastReveal = exRoomMid.lastReveal := by
  refine ⟨by decide, ?_, ?_⟩
  · exact (c10_disconnect_keeps_phase exRoomMid ("B") roomAfterMid (by decide)).1
  · exact (c10_disconnect_keeps_phase exRoomMid ("B") roomAfterMid (by decide)).2

/-! ### Claim C8 -/

/-- C8 counterexample: entering GAMEOVER clears the reveal snapshot and
the target, so during GAMEOVER no player's payload exposes the target,
contradicting the claim that the target stays visible via
lastReveal.target. -/
theorem c8_counterexample :
    exRoomReveal.phase = Phase.REVEAL ∧
    ¬(exRoomReveal.lastReveal = none) ∧
    (endGame exRoomReveal).1.phase = Phase.GAMEOVER ∧
    (safeRoomState (endGame exRoomReveal).1 ("A")).lastReveal = none ∧
    (safeRoomState (endGame exRoomReveal).1 ("A")).secretTarget = none := by
  decide

/-- C8 (amended): the secretTarget field is in a player's payload iff the
recipient is the clue-giver and the phase is CLUE (so in particular never
during GUESS), and then it carries the room's target; after a reveal the
phase is REVEAL and every player's payload contains the snapshot whose
target field is the room's target; after endGame — the only way into
GAMEOVER — the snapshot and the target are cleared, so no payload exposes
the target. -/
theorem c8_target_visibility (room : Room) (pid : String) :
    (¬((safeRoomState room pid).secretTarget = none) ↔
      (room.cluegiverId = some pid ∧ room.phase = Phase.CLUE)) ∧
    ((safeRoomState room pid).secretTarget = none ∨
      (safeRoomState room pid).secretTarget = some room.target) ∧
    ((revealRound room).1.phase = Phase.REVEAL ∧
      ∀ q, ((safeRoomState (revealRound room).1 q).lastReveal).map RevealSnap.target =
        some room.target) ∧
    ((endGame room).1.phase = Phase.GAMEOVER ∧
      (safeRoomState (endGame room).1 pid).lastReveal = none ∧
      (safeRoomState (endGame room).1 pid).secretTarget = none) := by
  refine ⟨?_, ?_, ⟨rfl, fun q => rfl⟩, rfl, rfl, ?_⟩
  · by_cases h : room.cluegiverId = some pid ∧ room.phase = Phase.CLUE
    · simp [safeRoomState, h]
    · simp [safeRoomState, h]
  · by_cases h : room.cluegiverId = some pid ∧ room.phase = Phase.CLUE
    · simp [safeRoomState, h]
    · simp [safeRoomState, h]
  · simp [safeRoomState, endGame]

/-! ### Claim C2 -/

/-- C2 counterexample: game:start has no phase guard. A host's game:start
in phase REVEAL with two players violates the claim's From-phase guard
(LOBBY) and is not the under-two-players exception, yet it restarts the
game: the phase changes from REVEAL to CLUE. -/
theorem c2_counterexample :
    claimGuardViolated exRoomReveal ("A") (GEvent.gameStart none exPrompt 50) ∧
    2 ≤ exRoomReveal.players.length ∧
    exRoomReveal.phase = Phase.REVEAL ∧
    (step exRoomReveal ("A") (GEvent.gameStart none exPrompt 50)).1.phase =
      Phase.CLUE := by
  decide

/-- C2 (amended): every violated actor guard, and every violated phase
guard of the seven handlers that check the phase, is silently ignored:
the room is unchanged and no event is emitted. game:start and game:replay
check only the actor, never the phase. The two rejection signals are
game:start by the host with fewer than 2 players and room:join with an
unknown code, each emitting room:error to the requester and changing
nothing. -/
theorem c2_guard_behaviour (room : Room) (sender : String) :
    (∀ ev, guardViolatedAm room sender ev → step room sender ev = (room, [])) ∧
    (∀ tr spec tgt, room.hostId = some sender → room.players.length < 2 →
      step room sender (GEvent.gameStart tr spec tgt) =
        (room, [OutEvent.roomError sender ("Need at least 2 players.")])) ∧
    (∀ rooms code name, getVal rooms code = none →
      handleRoomJoin rooms sender code name =
        (rooms, [OutEvent.roomError sender ("Room not found.")])) := by
  refine ⟨?_, ?_, ?_⟩
  · intro ev hv
    cases ev with
    | promptsSet text =>
      rcases hv with h | h <;> simp [step, handlePromptsSet, h]
    | configSetRounds tr =>
      rcases hv with h | h <;> simp [step, handleConfigSetRounds, h]
    | gameStart tr spec tgt =>
      have h : ¬(room.hostId = some sender) := hv
      simp [step, handleGameStart, h]
    | roundClue text =>
      rcases hv with h | h <;> simp [step, handleRoundClue, h]
    | roundGuess v =>
      rcases hv with h | h <;> simp [step, handleRoundGuess, h]
    | roundLock =>
      rcases hv with h | h <;> simp [step, handleRoundLock, h]
    | roundRevealNow =>
      rcases hv with h | h <;> simp [step, handleRoundRevealNow, h]
    | roundNext spec tgt =>
      rcases hv with h | h <;> simp [step, handleRoundNext, h]
    | gameReplay spec tgt =>
      have h : ¬(room.hostId = some sender) := hv
      simp [step, handleGameReplay, h]
  · intro tr spec tgt hh hlt
    simp [step, handleGameStart, hh, hlt]
  · intro rooms code name h
    simp [handleRoomJoin, h]

/-- C2 witness: a non-phase lock in the lobby is ignored, a solo start is
rejected with an error, and joining an unknown code is rejected with an
error. -/
theorem c2_witness :
    guardViolatedAm exRoomLobby ("B") GEvent.roundLock ∧
    step exRoomLobby ("B") GEvent.roundLock = (exRoomLobby, []) ∧
    exRoomSolo.hostId = some ("A") ∧
    exRoomSolo.players.length < 2 ∧
    step exRoomSolo ("A") (GEvent.gameStart none exPrompt 50) =
      (exRoomSolo, [OutEvent.roomError ("A") ("Need at least 2 players.")]) ∧
    getVal ([] : List (String × Room)) ("NOPE") = none ∧
    handleRoomJoin [] ("A") ("NOPE") ("Al") =
      ([], [OutEvent.roomError ("A") ("Room not found.")]) := by
  refine ⟨by decide, ?_, rfl, by decide, ?_, rfl, ?_⟩
  · exact (c2_guard_behaviour exRoomLobby ("B")).1 GEvent.roundLock (by decide)
  · exact (c2_guard_behaviour exRoomSolo ("A")).2.1 none exPrompt 50 rfl (by decide)
  · exact (c2_guard_behaviour exRoomLobby ("A")).2.2 [] ("NOPE") ("Al") rfl

/-! ### Claim C7 -/

/-- C7 counterexample: the disconnect handler does not prune the locked
set. After the locked player B disconnects, B is still in locked but no
longer in the player list, so the claimed invariant fails. -/
theorem c7_counterexample :
    lockedInv exRoomMid ∧
    (handleDisconnect exRoomMid ("B")).1 = some roomAfterMid ∧
    ("B" : String) ∈ roomAfterMid.locked ∧
    ¬(("B" : String) ∈ roomAfterMid.players.map Player.id) ∧
    ¬ lockedInv roomAfterMid := by
  decide

/-- Locking a current non-clue-giver player keeps the invariant. -/
theorem lockedInv_setAdd (room : Room) (sender : String) (hinv : lockedInv room)
    (hs : sender ∈ room.players.map Player.id)
    (hcg : ¬(room.cluegiverId = some sender)) :
    lockedInv { room with locked := setAdd room.locked sender } := by
  intro id hid
  have hid2 : id ∈ setAdd room.locked sender := hid
  unfold setAdd at hid2
  by_cases hmem : sender ∈ room.locked
  · rw [if_pos hmem] at hid2
    exact hinv id hid2
  · rw [if_neg hmem] at hid2
    rcases List.mem_append.mp hid2 with h | h
    · exact hinv id h
    · have he : id = sender := List.mem_singleton.mp h
      subst he
      exact ⟨hs, hcg⟩

/-- C7 (amended): the invariant that every locked id belongs to a current
player and is not the clue-giver is preserved by join, guess, lock from a
current player, reveal, round start, game over, next round, game start,
replay, force reveal, prompt setting and round configuration — but not by
disconnect, which leaves departed players' ids in the locked set. -/
theorem c7_locked_invariant (room : Room) (hinv : lockedInv room) :
    (∀ sender name, lockedInv (joinRoomUpdate room sender name)) ∧
    (∀ sender v, lockedInv (handleRoundGuess room sender v).1) ∧
    (∀ sender, sender ∈ room.players.map Player.id →
      lockedInv (handleRoundLock room sender).1) ∧
    lockedInv (revealRound room).1 ∧
    (∀ spec tgt, lockedInv (startRound spec tgt room).1) ∧
    lockedInv (endGame room).1 ∧
    (∀ sender spec tgt, lockedInv (handleRoundNext room sender spec tgt).1) ∧
    (∀ sender tr spec tgt, lockedInv (handleGameStart room sender tr spec tgt).1) ∧
    (∀ sender spec tgt, lockedInv (handleGameReplay room sender spec tgt).1) ∧
    (∀ sender, lockedInv (handleRoundRevealNow room sender).1) ∧
    (∀ sender text, lockedInv (handlePromptsSet room sender text).1) ∧
    (∀ sender tr, lockedInv (handleConfigSetRounds room sender tr).1) := by
  refine ⟨?_, ?_, ?_, ?_, ?_, ?_, ?_, ?_, ?_, ?_, ?_, ?_⟩
  · intro sender name
    unfold joinRoomUpdate
    split_ifs with h
    · exact hinv
    · intro id hid
      obtain ⟨hmem, hcg⟩ := hinv id hid
      refine ⟨?_, hcg⟩
      rw [List.map_append]
      exact List.mem_append_left _ hmem
  · intro sender v
    unfold handleRoundGuess
    split_ifs
    all_goals exact hinv
  · intro sender hs
    unfold handleRoundLock
    dsimp only
    split_ifs
    all_goals first
      | exact hinv
      | exact fun id hid =>
          lockedInv_setAdd room sender hinv hs (by assumption) id hid
  · exact fun id hid => hinv id hid
  · intro spec tgt id hid
    exact absurd hid (List.not_mem_nil id)
  · intro id hid
    exact absurd hid (List.not_mem_nil id)
  · intro sender spec tgt
    unfold handleRoundNext
    split_ifs
    all_goals first
      | exact hinv
      | (intro id hid; exact absurd hid (List.not_mem_nil id))
  · intro sender tr spec tgt
    unfold handleGameStart
    split_ifs
    all_goals first
      | exact hinv
      | (intro id hid; exact absurd hid (List.not_mem_nil id))
  · intro sender spec tgt
    unfold handleGameReplay
    split_ifs
    all_goals first
      | exact hinv
      | (intro id hid; exact absurd hid (List.not_mem_nil id))
  · intro sender
    unfold handleRoundRevealNow
    split_ifs
    all_goals exact hinv
  · intro sender text
    unfold handlePromptsSet
    split_ifs
    all_goals exact hinv
  · intro sender tr
    unfold handleConfigSetRounds
    split_ifs
    all_goals exact hinv

/-- C7 witness: the amended invariant statement at a concrete room. -/
theorem c7_witness :
    lockedInv exRoomMid ∧
    lockedInv (handleRoundGuess exRoomMid ("C") (some 30)).1 ∧
    (("C" : String) ∈ exRoomMid.players.map Player.id) ∧
    lockedInv (handleRoundLock exRoomMid ("C")).1 := by
  refine ⟨by decide, ?_, by decide, ?_⟩
  · exact (c7_locked_invariant exRoomMid (by decide)).2.1 ("C") (some 30)
  · exact (c7_locked_invariant exRoomMid (by decide)).2.2.1 ("C") (by decide)

/-! ### Claim C3 -/

/-- C3: at every reveal, each guesser who submitted a numeric guess gains
exactly the tier points of the distance between guess and target, with a
matching perPlayer entry; each guesser without a guess gains nothing and
is recorded with points 0 and absent guess and distance; and the
cumulative team score grows by exactly the sum of all guessers' tier
points for the round. -/
theorem c3_reveal_scoring (room : Room)
    (hnd : (room.players.map Player.id).Nodup)
    (p : Player) (hp : p ∈ room.players) (hcg : ¬(room.cluegiverId = some p.id)) :
    (∀ gv, getVal room.guesses p.id = some gv →
      getD0 (revealRound room).1.playerScores p.id =
        getD0 room.playerScores p.id +
          ((scoreFromDistance |gv - targetQ room| : ℕ) : ℤ) ∧
      ((revealRound room).1.lastReveal.map (fun s => getVal s.perPlayer p.id)) =
        some (some ⟨some gv, some |gv - targetQ room|,
          scoreFromDistance |gv - targetQ room|⟩)) ∧
    (getVal room.guesses p.id = none →
      getD0 (revealRound room).1.playerScores p.id =
        getD0 room.playerScores p.id ∧
      ((revealRound room).1.lastReveal.map (fun s => getVal s.perPlayer p.id)) =
        some (some ⟨none, none, 0⟩)) ∧
    (revealRound room).1.score = room.score +
      ((((guessersOf room).map (fun q => ((getVal room.guesses q.id).map
        (fun gv => scoreFromDistance |gv - targetQ room|)).getD 0)).sum : ℕ) : ℤ) := by
  have hpg : p ∈ guessersOf room := by
    unfold guessersOf
    exact List.mem_filter.mpr ⟨hp, by simpa using hcg⟩
  have hgnd := guessersOf_ids_nodup room hnd
  have hscore := revealRound_guesser_getD0 room hnd p hp hcg
  have hpp := revealRound_perPlayer room
  have hentry : ((revealRound room).1.lastReveal.map
      (fun s => getVal s.perPlayer p.id)) =
      some (some (mkEntry room.guesses (targetQ room) p)) := by
    cases hlr : (revealRound room).1.lastReveal with
    | none =>
      rw [hlr] at hpp
      cases hpp
    | some snap =>
      rw [hlr] at hpp
      have hsp := Option.some.inj hpp
      simp only [Option.map_some']
      rw [hsp, getVal_map_entries _ _ hgnd p hpg]
  refine ⟨?_, ?_, revealRound_score room⟩
  · intro gv hgv
    constructor
    · rw [hscore]
      congr 2
      simp [mkEntry, hgv]
    · rw [hentry]
      simp [mkEntry, hgv]
  · intro hgv
    constructor
    · rw [hscore]
      simp [mkEntry, hgv]
    · rw [hentry]
      simp [mkEntry, hgv]

/-- C3 witness: the statement at a concrete three-player room where B
guessed 45 against target 50 and C did not guess. -/
theorem c3_witness :
    ((exRoomMid.players.map Player.id).Nodup) ∧
    pB ∈ exRoomMid.players ∧
    ¬(exRoomMid.cluegiverId = some pB.id) ∧
    ((∀ gv, getVal exRoomMid.guesses pB.id = some gv →
      getD0 (revealRound exRoomMid).1.playerScores pB.id =
        getD0 exRoomMid.playerScores pB.id +
          ((scoreFromDistance |gv - targetQ exRoomMid| : ℕ) : ℤ) ∧
      ((revealRound exRoomMid).1.lastReveal.map
          (fun s => getVal s.perPlayer pB.id)) =
        some (some ⟨some gv, some |gv - targetQ exRoomMid|,
          scoreFromDistance |gv - targetQ exRoomMid|⟩)) ∧
    (getVal exRoomMid.guesses pB.id = none →
      getD0 (revealRound exRoomMid).1.playerScores pB.id =
        getD0 exRoomMid.playerScores pB.id ∧
      ((revealRound exRoomMid).1.lastReveal.map
          (fun s => getVal s.perPlayer pB.id)) =
        some (some ⟨none, none, 0⟩)) ∧
    (revealRound exRoomMid).1.score = exRoomMid.score +
      ((((guessersOf exRoomMid).map (fun q => ((getVal exRoomMid.guesses q.id).map
        (fun gv => scoreFromDistance |gv - targetQ exRoomMid|)).getD 0)).sum : ℕ) : ℤ)) :=
  ⟨by decide, by decide, by decide,
    c3_reveal_scoring exRoomMid (by decide) pB (by decide) (by decide)⟩

/-! ### Claim C4 -/

/-- C4: at every reveal the clue-giver's cumulative score increases by
the rounded arithmetic mean of the tier points of exactly those guessers
who submitted a numeric guess, by 0 when there is none, and the
cumulative team score increases only by the sum of the guessers' tier
points, not by the clue-giver's points. -/
theorem c4_cluegiver_mean (room : Room) (cg : String)
    (hc : room.cluegiverId = some cg) :
    getD0 (revealRound room).1.playerScores cg =
      getD0 room.playerScores cg +
        (if 0 < ((guessersOf room).filterMap (fun q => (getVal room.guesses q.id).map
            (fun gv => scoreFromDistance |gv - targetQ room|))).length
         then jsRound
           ((((guessersOf room).filterMap (fun q => (getVal room.guesses q.id).map
              (fun gv => scoreFromDistance |gv - targetQ room|))).sum : ℚ) /
            (((guessersOf room).filterMap (fun q => (getVal room.guesses q.id).map
              (fun gv => scoreFromDistance |gv - targetQ room|))).length : ℚ))
         else 0) ∧
    (revealRound room).1.score = room.score +
      ((((guessersOf room).filterMap (fun q => (getVal room.guesses q.id).map
        (fun gv => scoreFromDistance |gv - targetQ room|))).sum : ℕ) : ℤ) := by
  refine ⟨revealRound_cluegiver_getD0 room cg hc, ?_⟩
  rw [revealRound_score room, sum_filterMap_eq_sum_map]

/-- C4 witness: the statement at a concrete room with clue-giver A and
one scoring guesser. -/
theorem c4_witness :
    exRoomMid.cluegiverId = some ("A") ∧
    (getD0 (revealRound exRoomMid).1.playerScores ("A") =
      getD0 exRoomMid.playerScores ("A") +
        (if 0 < ((guessersOf exRoomMid).filterMap
            (fun q => (getVal exRoomMid.guesses q.id).map
              (fun gv => scoreFromDistance |gv - targetQ exRoomMid|))).length
         then jsRound
           ((((guessersOf exRoomMid).filterMap
              (fun q => (getVal exRoomMid.guesses q.id).map
                (fun gv => scoreFromDistance |gv - targetQ exRoomMid|))).sum : ℚ) /
            (((guessersOf exRoomMid).filterMap
              (fun q => (getVal exRoomMid.guesses q.id).map
                (fun gv => scoreFromDistance |gv - targetQ exRoomMid|))).length : ℚ))
         else 0) ∧
    (revealRound exRoomMid).1.score = exRoomMid.score +
      ((((guessersOf exRoomMid).filterMap
        (fun q => (getVal exRoomMid.guesses q.id).map
          (fun gv => scoreFromDistance |gv - targetQ exRoomMid|))).sum : ℕ) : ℤ)) :=
  ⟨rfl, c4_cluegiver_mean exRoomMid ("A") rfl⟩

/-! ### Claim C5 -/

/-- C5: under the data-model invariant that guess entries belong only to
non-clue-givers, the stored final guess is the rounded arithmetic mean of
the guesses of players who both guessed and locked, 50 when there are
none; its own distance and tier appear only in the reveal snapshot
(fields dist and delta); and the per-player scores and the team score are
entirely independent of the locked set the final guess is computed
from. -/
theorem c5_final_guess (room : Room)
    (hg : ∀ e ∈ room.guesses, ¬(room.cluegiverId = some e.1)) :
    ((revealRound room).1.finalGuess =
      some (if (room.players.filterMap (fun p => if p.id ∈ room.locked
                then getVal room.guesses p.id else none)).length = 0
            then (50 : ℤ)
            else jsRound ((room.players.filterMap (fun p => if p.id ∈ room.locked
                then getVal room.guesses p.id else none)).sum /
              ((room.players.filterMap (fun p => if p.id ∈ room.locked
                then getVal room.guesses p.id else none)).length : ℚ)))) ∧
    (∃ snap, (revealRound room).1.lastReveal = some snap ∧
      (revealRound room).1.finalGuess = some snap.finalGuess ∧
      snap.dist = |((snap.finalGuess : ℤ) : ℚ) - targetQ room| ∧
      snap.delta = scoreFromDistance snap.dist) ∧
    (∀ L, (revealRound { room with locked := L }).1.playerScores =
        (revealRound room).1.playerScores ∧
      (revealRound { room with locked := L }).1.score =
        (revealRound room).1.score) := by
  have hg' : ∀ id, ¬(getVal room.guesses id = none) →
      ¬(room.cluegiverId = some id) := by
    intro id hne
    cases hv : getVal room.guesses id with
    | none => exact absurd hv hne
    | some v => exact hg (id, v) (mem_of_getVal_eq_some _ _ _ hv)
  have hvals : (((guessersOf room).map Player.id).filter
      (fun id => id ∈ room.locked)).filterMap (fun id => getVal room.guesses id) =
      room.players.filterMap
        (fun p => if p.id ∈ room.locked then getVal room.guesses p.id else none) := by
    unfold guessersOf
    exact finalGuessValues_eq room.players room.cluegiverId room.guesses room.locked hg'
  have hcf : computeFinalGuess room =
      (if (room.players.filterMap (fun p => if p.id ∈ room.locked
            then getVal room.guesses p.id else none)).length = 0
        then (50 : ℤ)
        else jsRound ((room.players.filterMap (fun p => if p.id ∈ room.locked
            then getVal room.guesses p.id else none)).sum /
          ((room.players.filterMap (fun p => if p.id ∈ room.locked
            then getVal room.guesses p.id else none)).length : ℚ))) := by
    simp only [computeFinalGuess]
    rw [hvals]
  refine ⟨?_, ⟨_, rfl, rfl, rfl, rfl⟩, fun L => ⟨rfl, rfl⟩⟩
  show some (computeFinalGuess room) = _
  rw [hcf]

/-- C5 witness: the statement at a concrete room where only B guessed and
locked. -/
theorem c5_witness :
    (∀ e ∈ exRoomMid.guesses, ¬(exRoomMid.cluegiverId = some e.1)) ∧
    (((revealRound exRoomMid).1.finalGuess =
      some (if (exRoomMid.players.filterMap (fun p => if p.id ∈ exRoomMid.locked
                then getVal exRoomMid.guesses p.id else none)).length = 0
            then (50 : ℤ)
            else jsRound ((exRoomMid.players.filterMap
                (fun p => if p.id ∈ exRoomMid.locked
                  then getVal exRoomMid.guesses p.id else none)).sum /
              ((exRoomMid.players.filterMap (fun p => if p.id ∈ exRoomMid.locked
                then getVal exRoomMid.guesses p.id else none)).length : ℚ)))) ∧
    (∃ snap, (revealRound exRoomMid).1.lastReveal = some snap ∧
      (revealRound exRoomMid).1.finalGuess = some snap.finalGuess ∧
      snap.dist = |((snap.finalGuess : ℤ) : ℚ) - targetQ exRoomMid| ∧
      snap.delta = scoreFromDistance snap.dist) ∧
    (∀ L, (revealRound { exRoomMid with locked := L }).1.playerScores =
        (revealRound exRoomMid).1.playerScores ∧
      (revealRound { exRoomMid with locked := L }).1.score =
        (revealRound exRoomMid).1.score)) :=
  ⟨by decide, c5_final_guess exRoomMid (by decide)⟩

/-! ### Claim C6 -/

/-- C6: when a round:lock from a non-clue-giver completes the locked set
over all guessers, the same step moves the phase to REVEAL and produces a
snapshot whose perPlayer keys are exactly the guessers' ids, one entry
each, and the clue-giver has no entry. -/
theorem c6_lock_completes_round (room : Room) (sender : String)
    (hnd : (room.players.map Player.id).Nodup)
    (hph : room.phase = Phase.GUESS)
    (hcg : ¬(room.cluegiverId = some sender))
    (hall : ∀ p ∈ room.players, ¬(room.cluegiverId = some p.id) →
      p.id ∈ setAdd room.locked sender) :
    (handleRoundLock room sender).1.phase = Phase.REVEAL ∧
    ∃ snap, (handleRoundLock room sender).1.lastReveal = some snap ∧
      snap.perPlayer.map Prod.fst = (guessersOf room).map Player.id ∧
      (snap.perPlayer.map Prod.fst).Nodup ∧
      (∀ cgid, room.cluegiverId = some cgid → getVal snap.perPlayer cgid = none) := by
  have hcond : ((guessersOf { room with locked := setAdd room.locked sender }).all
      (fun p => p.id ∈ setAdd room.locked sender)) = true := by
    rw [List.all_eq_true]
    intro p hp
    have hp' := List.mem_filter.mp hp
    exact decide_eq_true (hall p hp'.1 (by simpa using hp'.2))
  have hlock : handleRoundLock room sender =
      revealRound { room with locked := setAdd room.locked sender } := by
    unfold handleRoundLock
    rw [if_neg (by simp [hph]), if_neg hcg]
    dsimp only
    rw [if_pos hcond]
  have hpp := revealRound_perPlayer { room with locked := setAdd room.locked sender }
  refine ⟨by rw [hlock]; rfl, ?_⟩
  cases hlr : (revealRound { room with locked := setAdd room.locked sender }).1.lastReveal with
  | none =>
    rw [hlr] at hpp
    cases hpp
  | some snap =>
    rw [hlr] at hpp
    have hsp := Option.some.inj hpp
    refine ⟨snap, by rw [hlock, hlr], ?_, ?_, ?_⟩
    · rw [hsp, List.map_map]
      rfl
    · rw [hsp, List.map_map]
      exact guessersOf_ids_nodup room hnd
    · intro cgid hcgid
      rw [hsp]
      apply getVal_not_mem
      rw [List.map_map]
      exact cluegiver_not_mem_guessers room cgid hcgid

/-- C6 witness: B locking in a two-player GUESS room with clue-giver A
completes the round. -/
theorem c6_witness :
    ((exRoomGuess.players.map Player.id).Nodup) ∧
    exRoomGuess.phase = Phase.GUESS ∧
    ¬(exRoomGuess.cluegiverId = some ("B")) ∧
    (∀ p ∈ exRoomGuess.players, ¬(exRoomGuess.cluegiverId = some p.id) →
      p.id ∈ setAdd exRoomGuess.locked ("B")) ∧
    ((handleRoundLock exRoomGuess ("B")).1.phase = Phase.REVEAL ∧
    ∃ snap, (handleRoundLock exRoomGuess ("B")).1.lastReveal = some snap ∧
      snap.perPlayer.map Prod.fst = (guessersOf exRoomGuess).map Player.id ∧
      (snap.perPlayer.map Prod.fst).Nodup ∧
      (∀ cgid, exRoomGuess.cluegiverId = some cgid →
        getVal snap.perPlayer cgid = none)) :=
  ⟨by decide, rfl, by decide, by decide,
    c6_lock_completes_round exRoomGuess ("B") (by decide) rfl (by decide) (by decide)⟩

end Wavelength
